import Mathlib

/-
Verification of the DataLeakHunter detection / normalization / dedup / fan-out
pipeline.  The Python sources are shallowly embedded: Python dicts become
structures with `Option` fields for possibly-missing keys, machine-level
library routines (SHA-256, UTF-8 encoding) are implemented over `Nat`,
Python `str` values are Lean `String`s (lists of code points, matching
Python's code-point semantics for slicing, sorting and `replace`).
-/

/-! Python string helpers -/

/-- ASCII lower-casing of one character, as `str.lower` acts on the ASCII
range (the only range relevant to the rule labels and severities of this
code base). -/
def pyCharLower (c : Char) : Char :=
  if 'A' ≤ c ∧ c ≤ 'Z' then Char.ofNat (c.toNat + 32) else c

/-- Modelled from the library: Python `str.lower`, restricted to ASCII
case mapping. -/
def pyLower (s : String) : String := ⟨s.data.map pyCharLower⟩

/-- Boolean test that `p` is a leading segment of `s` (Python
`str.startswith` on code-point lists). -/
def listStarts : List Char → List Char → Bool
  | [], _ => true
  | _ :: _, [] => false
  | a :: ps, b :: ss => a == b && listStarts ps ss

/-- Boolean test that `q` occurs contiguously inside `s` (Python
substring containment `q in s`). -/
def occursIn (q s : List Char) : Bool :=
  match s with
  | [] => listStarts q []
  | _ :: ss => listStarts q s || occursIn q ss

/-- Python `str.startswith` with a tuple of alternatives. -/
def pyStartsWithAny (s : String) (ps : List String) : Bool :=
  ps.any fun p => listStarts p.data s.data

theorem listStarts_length : ∀ {p s : List Char}, listStarts p s = true → p.length ≤ s.length
  | [], _, _ => by simp
  | _ :: _, [], h => by simp [listStarts] at h
  | _ :: ps, _ :: ss, h => by
    simp only [listStarts, Bool.and_eq_true] at h
    have := listStarts_length (p := ps) (s := ss) h.2
    simpa using this

/-- Modelled from the library: Python `str.replace(pat, rep)` for a
non-empty `pat` — scan left to right, replace each non-overlapping
occurrence of `pat` by `rep`.  (For `pat = []` the scan leaves the string
unchanged; the code base only calls it with non-empty patterns, guarded by
`if m:` in `redact`.) -/
def replaceAll (s pat rep : List Char) : List Char :=
  match s with
  | [] => []
  | c :: cs =>
    if h : pat ≠ [] ∧ listStarts pat (c :: cs) = true then
      rep ++ replaceAll ((c :: cs).drop pat.length) pat rep
    else
      c :: replaceAll cs pat rep
termination_by s.length
decreasing_by
  · have hlen := listStarts_length h.2
    have hp : 1 ≤ pat.length := by
      cases pat with
      | nil => exact absurd rfl h.1
      | cons x xs => simp
    simp only [List.length_drop, List.length_cons] at *
    omega
  · simp

/-- Code-point lexicographic comparison of character lists, the order
Python uses to sort strings. -/
def listCharLeB : List Char → List Char → Bool
  | [], _ => true
  | _ :: _, [] => false
  | a :: as, b :: bs =>
    if a.toNat < b.toNat then true
    else if b.toNat < a.toNat then false
    else listCharLeB as bs

/-- Python string comparison `a <= b` (code-point lexicographic). -/
def strLe (a b : String) : Prop := listCharLeB a.data b.data = true

instance : DecidableRel strLe := fun a b => by
  unfold strLe; infer_instance

theorem listCharLeB_total : ∀ a b : List Char, listCharLeB a b = true ∨ listCharLeB b a = true
  | [], _ => Or.inl rfl
  | _ :: _, [] => Or.inr rfl
  | a :: as, b :: bs => by
    rcases Nat.lt_trichotomy a.toNat b.toNat with h | h | h
    · left; simp [listCharLeB, h]
    · rcases listCharLeB_total as bs with ih | ih
      · left; simp [listCharLeB, h, ih]
      · right; simp [listCharLeB, h.symm, ih]
    · right; simp [listCharLeB, h]

theorem listCharLeB_antisymm : ∀ {a b : List Char},
    listCharLeB a b = true → listCharLeB b a = true → a = b
  | [], [], _, _ => rfl
  | [], _ :: _, _, h2 => by simp [listCharLeB] at h2
  | _ :: _, [], h1, _ => by simp [listCharLeB] at h1
  | a :: as, b :: bs, h1, h2 => by
    rcases Nat.lt_trichotomy a.toNat b.toNat with h | h | h
    · simp [listCharLeB, h, Nat.lt_asymm h] at h2
    · have hab : a = b := Char.eq_of_val_eq (UInt32.ext h)
      subst hab
      simp only [listCharLeB, Nat.lt_irrefl, if_false] at h1 h2
      exact congrArg (a :: ·) (listCharLeB_antisymm h1 h2)
    · simp [listCharLeB, h, Nat.lt_asymm h] at h1

theorem listCharLeB_trans : ∀ {a b c : List Char},
    listCharLeB a b = true → listCharLeB b c = true → listCharLeB a c = true
  | [], _, _, _, _ => rfl
  | _ :: _, [], _, h1, _ => by simp [listCharLeB] at h1
  | _ :: _, _ :: _, [], _, h2 => by simp [listCharLeB] at h2
  | a :: as, b :: bs, c :: cs, h1, h2 => by
    rcases Nat.lt_trichotomy a.toNat b.toNat with hab | hab | hab <;>
      rcases Nat.lt_trichotomy b.toNat c.toNat with hbc | hbc | hbc
    all_goals simp only [listCharLeB] at h1 h2 ⊢
    · simp [Nat.lt_trans hab hbc]
    · simp [hbc ▸ hab]
    · simp [hab, Nat.lt_asymm hab] at h1 ⊢
      simp [hbc, Nat.lt_asymm hbc] at h2
    · simp [hab ▸ hbc]
    · simp [hab, hbc, Nat.lt_irrefl] at h1 h2 ⊢
      exact listCharLeB_trans h1 h2
    · simp [hab, Nat.lt_irrefl, Nat.lt_asymm hbc, hbc] at h1 h2
    · simp [hab, Nat.lt_asymm hab] at h1
    · simp [hab, Nat.lt_asymm hab] at h1
    · simp [hab, Nat.lt_asymm hab] at h1

instance : IsTotal String strLe := ⟨fun a b => listCharLeB_total a.data b.data⟩

instance : IsTrans String strLe := ⟨fun _ _ _ h1 h2 => listCharLeB_trans h1 h2⟩

instance : IsAntisymm String strLe :=
  ⟨fun a b h1 h2 => by
    cases a; cases b
    exact congrArg String.mk (listCharLeB_antisymm h1 h2)⟩

/-! SHA-256 over Nat arithmetic (models `hashlib.sha256(...).hexdigest()`
together with `str.encode("utf-8")`). -/

/-- UTF-8 encoding of one code point as a byte list. -/
def utf8EncodeChar (c : Char) : List Nat :=
  let n := c.toNat
  if n < 128 then [n]
  else if n < 2048 then [192 + n / 64, 128 + n % 64]
  else if n < 65536 then [224 + n / 4096, 128 + (n / 64) % 64, 128 + n % 64]
  else [240 + n / 262144, 128 + (n / 4096) % 64, 128 + (n / 64) % 64, 128 + n % 64]

/-- Modelled from the library: Python `s.encode("utf-8")`. -/
def utf8Bytes (s : String) : List Nat :=
  s.data.foldr (fun c acc => utf8EncodeChar c ++ acc) []

def rotr32 (x n : Nat) : Nat := ((x >>> n) ||| (x <<< (32 - n))) % 4294967296

def smallSigma0 (x : Nat) : Nat := (rotr32 x 7) ^^^ (rotr32 x 18) ^^^ (x >>> 3)

def smallSigma1 (x : Nat) : Nat := (rotr32 x 17) ^^^ (rotr32 x 19) ^^^ (x >>> 10)

def bigSigma0 (x : Nat) : Nat := (rotr32 x 2) ^^^ (rotr32 x 13) ^^^ (rotr32 x 22)

def bigSigma1 (x : Nat) : Nat := (rotr32 x 6) ^^^ (rotr32 x 11) ^^^ (rotr32 x 25)

/-- Big-endian 8-byte encoding of the bit length. -/
def be64 (n : Nat) : List Nat :=
  [(n >>> 56) % 256, (n >>> 48) % 256, (n >>> 40) % 256, (n >>> 32) % 256,
   (n >>> 24) % 256, (n >>> 16) % 256, (n >>> 8) % 256, n % 256]

/-- SHA-256 message padding: append 0x80, zero-pad to 56 mod 64, then the
64-bit big-endian bit length. -/
def sha256Pad (msg : List Nat) : List Nat :=
  let len := msg.length
  let padZeros := (119 - len % 64) % 64
  msg ++ [128] ++ List.replicate padZeros 0 ++ be64 (len * 8)

/-- Group a byte list into 32-bit big-endian words. -/
def bytesToWords : List Nat → List Nat
  | b0 :: b1 :: b2 :: b3 :: rest => (((b0 * 256 + b1) * 256 + b2) * 256 + b3) :: bytesToWords rest
  | _ => []

/-- Split the padded message into 64-byte blocks. -/
def toBlocks (l : List Nat) : List (List Nat) :=
  if h : l = [] then []
  else l.take 64 :: toBlocks (l.drop 64)
termination_by l.length
decreasing_by
  have : l.length ≠ 0 := fun hc => h (List.eq_nil_of_length_eq_zero hc)
  simp only [List.length_drop]
  omega

/-- Next word of the SHA-256 message schedule, from the 16 most recent. -/
def nextScheduleWord (w : List Nat) : Nat :=
  let n := w.length
  (smallSigma1 (w.getD (n - 2) 0) + w.getD (n - 7) 0 +
     smallSigma0 (w.getD (n - 15) 0) + w.getD (n - 16) 0) % 4294967296

def extendSchedule : List Nat → Nat → List Nat
  | w, 0 => w
  | w, k + 1 => extendSchedule (w ++ [nextScheduleWord w]) k

structure Hash8 where
  a : Nat
  b : Nat
  c : Nat
  d : Nat
  e : Nat
  f : Nat
  g : Nat
  h : Nat

/-- The 64 SHA-256 round constants, in decimal. -/
def sha256K : List Nat :=
  [1116352408, 1899447441, 3049323471, 3921009573, 961987163, 1508970993,
   2453635748, 2870763221, 3624381080, 310598401, 607225278, 1426881987,
   1925078388, 2162078206, 2614888103, 3248222580, 3835390401, 4022224774,
   264347078, 604807628, 770255983, 1249150122, 1555081692, 1996064986,
   2554220882, 2821834349, 2952996808, 3210313671, 3336571891, 3584528711,
   113926993, 338241895, 666307205, 773529912, 1294757372, 1396182291,
   1695183700, 1986661051, 2177026350, 2456956037, 2730485921, 2820302411,
   3259730800, 3345764771, 3516065817, 3600352804, 4094571909, 275423344,
   430227734, 506948616, 659060556, 883997877, 958139571, 1322822218,
   1537002063, 1747873779, 1955562222, 2024104815, 2227730452, 2361852424,
   2428436474, 2756734187, 3204031479, 3329325298]

/-- The eight SHA-256 initial hash words, in decimal. -/
def sha256InitH : Hash8 :=
  ⟨1779033703, 3144134277, 1013904242, 2773480762,
   1359893119, 2600822924, 528734635, 1541459225⟩

/-- One SHA-256 compression round. -/
def sha256Round (s : Hash8) (k w : Nat) : Hash8 :=
  let ch := (s.e &&& s.f) ^^^ ((4294967295 ^^^ s.e) &&& s.g)
  let maj := (s.a &&& s.b) ^^^ (s.a &&& s.c) ^^^ (s.b &&& s.c)
  let t1 := (s.h + bigSigma1 s.e + ch + k + w) % 4294967296
  let t2 := (bigSigma0 s.a + maj) % 4294967296
  ⟨(t1 + t2) % 4294967296, s.a, s.b, s.c, (s.d + t1) % 4294967296, s.e, s.f, s.g⟩

def sha256Compress (st : Hash8) (block : List Nat) : Hash8 :=
  let w := extendSchedule (bytesToWords block) 48
  let t := (sha256K.zip w).foldl (fun s kw => sha256Round s kw.1 kw.2) st
  ⟨(st.a + t.a) % 4294967296, (st.b + t.b) % 4294967296, (st.c + t.c) % 4294967296,
   (st.d + t.d) % 4294967296, (st.e + t.e) % 4294967296, (st.f + t.f) % 4294967296,
   (st.g + t.g) % 4294967296, (st.h + t.h) % 4294967296⟩

def hexDigit (n : Nat) : Char :=
  if n < 10 then Char.ofNat (48 + n) else Char.ofNat (87 + n)

/-- Lower-case hexadecimal rendering of one 32-bit word, 8 digits. -/
def hex8 (w : Nat) : List Char :=
  (List.range 8).map fun i => hexDigit ((w >>> ((7 - i) * 4)) &&& 15)

/-- Modelled from the library: `hashlib.sha256(s.encode("utf-8")).hexdigest()`
(src/app/utils.py, `sha256`). -/
def sha256 (s : String) : String :=
  let blocks := toBlocks (sha256Pad (utf8Bytes s))
  let fin := blocks.foldl sha256Compress sha256InitH
  ⟨hex8 fin.a ++ hex8 fin.b ++ hex8 fin.c ++ hex8 fin.d ++
   hex8 fin.e ++ hex8 fin.f ++ hex8 fin.g ++ hex8 fin.h⟩

/-! Data model -/

/-- One pattern hit, Python dict with keys "label" and "match"
(`matched` stands for the reserved word `match`). -/
structure Detection where
  label : Option String
  matched : Option String
deriving DecidableEq, Repr

/-- Container descriptor dict: keys "type", "id", "name", "url". -/
structure Container where
  ctype : Option String
  id : Option String
  name : Option String
  url : Option String
deriving DecidableEq, Repr

/-- Per-platform source metadata dict as built by the Slack connector. -/
structure SourceMeta where
  message_ts : Option String
  pointer : Option String
  author_id : Option String
  author_name : Option String
deriving DecidableEq, Repr

/-- Mutable sync record `status` of an Event. -/
structure Status where
  state : String
  jira_key : Option String
  glpi_id : Option String
  snow_sys_id : Option String
  last_sync_at : Option Nat
deriving DecidableEq, Repr

/-- Canonical Event record returned by `make_event` (src/app/normalize.py).
`found_at` is the wall-clock timestamp, modelled as a `Nat`. -/
structure Event where
  fingerprint : String
  platform : String
  container : Container
  found_at : Nat
  severity : String
  detections : List Detection
  snippet_redacted : String
  status : Status
  source_meta : SourceMeta
deriving DecidableEq, Repr

/-! src/app/utils.py -/

/-- Mask token used by `redact`. -/
def maskToken : List Char := ['*', '*', '*', '*']

/-- One loop iteration of `redact`: `if m: out = out.replace(m, "****")`. -/
def redactStep (out m : String) : String :=
  if m = "" then out else ⟨replaceAll out.data m.data maskToken⟩

/-- Translation of `redact` (src/app/utils.py lines 8-13): for each distinct
non-empty match string, replace all its occurrences by "****".  Python's
unordered `set(matches)` iteration is modelled as deduplicated list order. -/
def redact (text : String) (ms : List String) : String :=
  (ms.dedup).foldl redactStep text

/-! src/app/normalize.py -/

/-- How a Python f-string renders `container.get('id')`:
`None` prints as "None". -/
def pyFormatOpt : Option String → String
  | none => "None"
  | some s => s

/-- The collected match strings, before sorting: Python set comprehension
of `d.get("match","") for d in detections if d.get("match")` (truthiness
drops missing and empty matches). -/
def rawMatches (detections : List Detection) : List String :=
  detections.filterMap fun d =>
    match d.matched with
    | none => none
    | some m => if m = "" then none else some m

/-- Translation of `sorted({d.get("match","") for d in detections if
d.get("match")})` — the ascending code-point-sorted list of the distinct
non-empty match strings. -/
def sortedMatches (detections : List Detection) : List String :=
  List.insertionSort strLe (rawMatches detections).dedup

/-- Initial status record of a new Event. -/
def initialStatus : Status :=
  { state := "new", jira_key := none, glpi_id := none, snow_sys_id := none, last_sync_at := none }

/-- Translation of `make_event` (src/app/normalize.py).  The wall-clock
reading `datetime.utcnow()` is passed explicitly as `now`. -/
def make_event (platform : String) (container : Container) (text : String)
    (detections : List Detection) (source_meta : SourceMeta) (now : Nat) : Event :=
  let ms := sortedMatches detections
  let pointer := source_meta.pointer.getD ""
  let fp_basis := platform ++ "|" ++ pyFormatOpt container.id ++ "|" ++ pointer ++ "|" ++
    String.intercalate "," ms
  let fingerprint := sha256 fp_basis
  let snippet : String := ⟨text.data.take 4000⟩
  let snippet_redacted := redact snippet ms
  let severity :=
    if detections.any (fun d =>
        pyStartsWithAny (pyLower (d.label.getD "")) ["password", "private", "api", "credit"])
    then "High" else "Medium"
  { fingerprint := fingerprint, platform := platform, container := container,
    found_at := now, severity := severity, detections := detections,
    snippet_redacted := snippet_redacted, status := initialStatus,
    source_meta := source_meta }

/-! Event store (dedup gate): `events.update_one({"fingerprint": fp},
{"$setOnInsert": ev}, upsert=True)` against the unique index on
`fingerprint` (src/app/connectors/slack_connector.py lines 29, 120-126).
The collection is modelled as the list of stored documents in insertion
order; the returned Bool is `res.upserted_id` being non-null. -/

def insertIfAbsent (store : List Event) (ev : Event) : List Event × Bool :=
  if store.any (fun e => e.fingerprint == ev.fingerprint) then (store, false)
  else (store ++ [ev], true)

/-! Fan-out dispatcher (src/app/connectors/slack_connector.py lines
127-140).  Two protected blocks: the first `try` runs the three ticket
creators and the two Slack alert transports in order — an exception from
one of them aborts the rest of that block and is caught; the second `try`
runs the registered-webhook broadcast.  `raises s = true` means adapter
`s` throws when invoked. -/

inductive Sink where
  | jira
  | glpi
  | snow
  | slackApi
  | slackWebhook
  | webhooks
deriving DecidableEq, Repr

/-- The five adapters of the first protected block, in call order. -/
def ticketGroup : List Sink :=
  [Sink.jira, Sink.glpi, Sink.snow, Sink.slackApi, Sink.slackWebhook]

/-- Run one `try` block over its adapters: each is invoked in order; the
first one that raises is still invoked, but ends the block (the exception
is caught by the surrounding `except`). Returns the list of invoked
adapters. -/
def runProtectedGroup (raises : Sink → Bool) : List Sink → List Sink
  | [] => []
  | s :: rest => if raises s then [s] else s :: runProtectedGroup raises rest

/-- All adapters invoked during fan-out of one new event. -/
def fanOutInvoked (raises : Sink → Bool) : List Sink :=
  runProtectedGroup raises ticketGroup ++ runProtectedGroup raises [Sink.webhooks]

/-! Webhook subscription filters (src/app/integrations/webhooks.py). -/

/-- Subscription `filters` dict.  An outer `none` means the key is absent;
`some none` means the key is present with value `None`.  `hasOtherKeys`
records whether the dict carries any further keys (relevant only to the
`if not filters` emptiness test). -/
structure WebhookFilters where
  platform : Option (Option String)
  severity : Option (Option String)
  labels : Option (Option (List String))
  hasOtherKeys : Bool
deriving DecidableEq, Repr

def filtersIsEmpty (f : WebhookFilters) : Bool :=
  f.platform.isNone && f.severity.isNone && f.labels.isNone && !f.hasOtherKeys

/-- The event's detection labels: `[d.get("label") for d in detections if
d.get("label")]`. -/
def eventLabels (e : Event) : List String :=
  e.detections.filterMap fun d =>
    match d.label with
    | none => none
    | some l => if l = "" then none else some l

/-- Translation of `match_filters` (src/app/integrations/webhooks.py lines
31-41).  Sequential early `return False`s become a conjunction. -/
def match_filters (event : Event) (filters : WebhookFilters) : Bool :=
  if filtersIsEmpty filters then true
  else
    let plat := pyLower event.platform
    let sev := pyLower event.severity
    let labels := eventLabels event
    let platOk :=
      match filters.platform with
      | none => true
      | some v => pyLower (v.getD "") == plat
    let sevOk :=
      match filters.severity with
      | none => true
      | some v => pyLower (v.getD "") == sev
    let labOk :=
      match filters.labels with
      | none => true
      | some v => (v.getD []).any fun x => labels.contains x
    platOk && sevOk && labOk

/-! Administrative list-events endpoint (src/app/api/integrations.py). -/

/-- Query parameters of GET /integrations/events. -/
structure EventQuery where
  platform : Option String
  severity : Option String
  label : Option String
  since : Option String
  untilQ : Option String
  limit : Nat
  cursor : Option String
deriving DecidableEq, Repr

/-- Parse a decimal digit list. -/
def parseDigits : List Char → Nat → Option Nat
  | [], acc => some acc
  | c :: cs, acc =>
    if '0' ≤ c ∧ c ≤ '9' then parseDigits cs (acc * 10 + (c.toNat - 48)) else none

/-- Modelled from the library: rendering of a UTC `datetime` as an
ISO-8601 string with `Z` suffix (`dt.isoformat().replace("+00:00","Z")`).
Timestamps are modelled as `Nat`, rendered in decimal. -/
def isoZ (t : Nat) : String := toString t ++ "Z"

/-- Modelled from the library: `datetime.fromisoformat(s.replace("Z",
"+00:00"))`, the inverse of `isoZ` on rendered values; `none` models the
exception swallowed by the `try/except: pass` of `_build_mongo_query`. -/
def parseIsoZ (s : String) : Option Nat :=
  match s.data.getLast? with
  | some 'Z' => if s.data.dropLast = [] then none else parseDigits s.data.dropLast 0
  | _ => none

/-- The `found_at` range condition assembled by `_build_mongo_query`:
`$gte` from `since`, `$lte` from `until`, and `$lt` from `cursor`
(unparseable values are dropped). -/
structure TimeCond where
  gte : Option Nat
  lte : Option Nat
  lt : Option Nat
deriving DecidableEq, Repr

def buildTimeCond (q : EventQuery) : TimeCond :=
  let base : TimeCond := ⟨q.since.bind parseIsoZ, q.untilQ.bind parseIsoZ, none⟩
  match q.cursor with
  | none => base
  | some c =>
    match parseIsoZ c with
    | none => base
    | some t => { base with lt := some t }

/-- Translation of the Mongo query of `_build_mongo_query` applied to one
stored event: platform equality on the lower-cased query value, severity by
case-insensitive anchored regex (equality up to case), label by
`detections.label` array match, and the `found_at` range. An absent or
empty (falsy) query field imposes no constraint. -/
def matchesQuery (q : EventQuery) (e : Event) : Bool :=
  (match q.platform with
   | none => true
   | some p => if p = "" then true else e.platform == pyLower p)
  && (match q.severity with
      | none => true
      | some s => if s = "" then true else pyLower e.severity == pyLower s)
  && (match q.label with
      | none => true
      | some l => if l = "" then true else e.detections.any fun d => d.label == some l)
  && (let tc := buildTimeCond q
      (match tc.gte with | none => true | some t => decide (t ≤ e.found_at))
      && (match tc.lte with | none => true | some t => decide (e.found_at ≤ t))
      && (match tc.lt with | none => true | some t => decide (e.found_at < t)))

/-- Descending insertion by `found_at` (model of Mongo
`sort("found_at", -1)`; tie order between equal timestamps is not
specified by the store). -/
def insertByTime (a : Event) : List Event → List Event
  | [] => [a]
  | b :: bs => if b.found_at ≤ a.found_at then a :: b :: bs else b :: insertByTime a bs

def sortByTimeDesc : List Event → List Event
  | [] => []
  | a :: rest => insertByTime a (sortByTimeDesc rest)

/-- Translation of `list_events` (src/app/api/integrations.py lines
80-95): filter, sort newest-first, take `limit`, and render the last
returned document's `found_at` as the opaque `next_cursor`.  The per-event
`to_ecs` rendering preserves count and order and is omitted; the returned
list is the underlying documents. -/
def list_events (store : List Event) (q : EventQuery) : List Event × Option String :=
  let docs := (sortByTimeDesc (store.filter (matchesQuery q))).take q.limit
  (docs, docs.getLast?.map fun d => isoZ d.found_at)

/-! Export cursor walker (src/app/jobs/exporter_job.py, `run_export`).
`fetch` models `_fetch_page` (an `Except.error` is a raised
`RuntimeError`), `send` models `client.send` (an `Except.error` is a
raised exception; `Except.ok (okCount, failCount)` is the returned count
dict).  The walker state carries the in-memory cursor `cur` and the
cursor value persisted in Mongo by `_set_cursor`. -/

structure Page (α : Type) where
  events : List α
  next_cursor : Option String

inductive ExportOutcome where
  | finished (persisted : Option String) (sentOk sentFail pages : Nat)
  | raised (persisted : Option String)
  | fuelOut (persisted : Option String)
deriving DecidableEq, Repr

def runExportLoop {α : Type} (fetch : Option String → Except Unit (Page α))
    (send : List α → Except Unit (Nat × Nat)) :
    Nat → Option String → Option String → Nat → Nat → Nat → ExportOutcome
  | 0, _, persisted, _, _, _ => ExportOutcome.fuelOut persisted
  | fuel + 1, cur, persisted, tok, tfail, pages =>
    match fetch cur with
    | Except.error _ => ExportOutcome.raised persisted
    | Except.ok page =>
      if page.events.isEmpty then ExportOutcome.finished persisted tok tfail pages
      else
        match send page.events with
        | Except.error _ => ExportOutcome.raised persisted
        | Except.ok (okc, failc) =>
          match page.next_cursor with
          | some c =>
            runExportLoop fetch send fuel (some c) (some c) (tok + okc) (tfail + failc) (pages + 1)
          | none => ExportOutcome.finished persisted (tok + okc) (tfail + failc) (pages + 1)

/-- One run of the walker: the starting cursor `cur0` is the value loaded
by `_get_cursor`, which is also the currently persisted value. -/
def run_export {α : Type} (fetch : Option String → Except Unit (Page α))
    (send : List α → Except Unit (Nat × Nat)) (fuel : Nat) (cur0 : Option String) :
    ExportOutcome :=
  runExportLoop fetch send fuel cur0 cur0 0 0 0

/-! Pattern compilation at startup:
`PATTERNS = {k: re.compile(v, re.MULTILINE) for k, v in load_patterns().items()}`
(src/app/connectors/slack_connector.py line 37). -/

/-- A compiled regular expression object (only its identity matters here). -/
structure CompiledPattern where
  source : String
deriving DecidableEq, Repr

/-- Modelled from the library: validity of a regular expression under
`re.compile`, simplified to parenthesis balance with backslash escapes —
every pattern this check rejects (such as "(") is rejected by Python's
`re.compile` with `re.error`. -/
def parenScan : List Char → Nat → Bool
  | [], d => d == 0
  | '\\' :: [], _ => false
  | '\\' :: _ :: cs, d => parenScan cs d
  | '(' :: cs, d => parenScan cs (d + 1)
  | ')' :: cs, d => if d == 0 then false else parenScan cs (d - 1)
  | _ :: cs, d => parenScan cs d

def parenBalanced (s : String) : Bool := parenScan s.data 0

/-- Modelled from the library: `re.compile`, returning the compiled
pattern or raising `re.error` (the error carries the offending pattern). -/
def reCompile (pat : String) : Except String CompiledPattern :=
  if parenBalanced pat then Except.ok ⟨pat⟩ else Except.error pat

/-- Translation of the `PATTERNS` dict comprehension: entries are compiled
in order; the first `re.error` propagates out of the comprehension (and
aborts module import). -/
def compilePatterns : List (String × String) → Except String (List (String × CompiledPattern))
  | [] => Except.ok []
  | (k, v) :: rest =>
    match reCompile v with
    | Except.error e => Except.error e
    | Except.ok c =>
      match compilePatterns rest with
      | Except.error e => Except.error e
      | Except.ok done => Except.ok ((k, c) :: done)

/-! Lemma layer: equations for `replaceAll` and facts about `occursIn`. -/

theorem replaceAll_nil (pat rep : List Char) : replaceAll [] pat rep = [] := by
  simp [replaceAll]

theorem replaceAll_pos (c : Char) (cs pat rep : List Char)
    (h1 : pat ≠ []) (h2 : listStarts pat (c :: cs) = true) :
    replaceAll (c :: cs) pat rep = rep ++ replaceAll ((c :: cs).drop pat.length) pat rep := by
  rw [replaceAll]
  simp [h1, h2]

theorem replaceAll_neg (c : Char) (cs pat rep : List Char)
    (h : ¬(pat ≠ [] ∧ listStarts pat (c :: cs) = true)) :
    replaceAll (c :: cs) pat rep = c :: replaceAll cs pat rep := by
  rw [replaceAll]
  simp [h]

theorem listStarts_ne_nil_nil {q : List Char} (hq : q ≠ []) : listStarts q [] = false := by
  cases q with
  | nil => exact absurd rfl hq
  | cons a qs => rfl

theorem occursIn_nil {q : List Char} (hq : q ≠ []) : occursIn q [] = false :=
  listStarts_ne_nil_nil hq

theorem occursIn_cons (q : List Char) (c : Char) (s : List Char) :
    occursIn q (c :: s) = (listStarts q (c :: s) || occursIn q s) := rfl

theorem occursIn_tail_false {q : List Char} {c : Char} {s : List Char}
    (h : occursIn q (c :: s) = false) : occursIn q s = false := by
  rw [occursIn_cons] at h
  exact (Bool.or_eq_false_iff.mp h).2

theorem occursIn_drop_false {q : List Char} :
    ∀ (k : Nat) (s : List Char), occursIn q s = false → occursIn q (s.drop k) = false
  | 0, _, h => h
  | _ + 1, [], h => h
  | k + 1, _ :: s, h => occursIn_drop_false k s (occursIn_tail_false h)

theorem occursIn_append_false {q : List Char} (hq : q ≠ []) :
    ∀ (xs ys : List Char), (∀ a ∈ q, a ∉ xs) → occursIn q ys = false →
      occursIn q (xs ++ ys) = false
  | [], _, _, hys => by simpa using hys
  | x :: xs, ys, hdisj, hys => by
    rw [List.cons_append, occursIn_cons]
    have h1 : listStarts q (x :: (xs ++ ys)) = false := by
      cases q with
      | nil => exact absurd rfl hq
      | cons a qs =>
        have hax : (a == x) = false := by
          rw [beq_eq_false_iff_ne]
          intro he
          exact hdisj a (List.mem_cons_self a qs) (he ▸ List.mem_cons_self x xs)
        simp [listStarts, hax]
    have h2 : occursIn q (xs ++ ys) = false :=
      occursIn_append_false hq xs ys
        (fun a ha hax => hdisj a ha (List.mem_cons_of_mem x hax)) hys
    simp [h1, h2]

/-- A pattern that does not begin a string still does not begin it after
replacement, provided the pattern shares no character with the mask. -/
theorem keepNotStarts (p r : List Char) (hr : r ≠ []) :
    ∀ n s q, s.length ≤ n → q ≠ [] → (∀ a ∈ q, a ∉ r) →
      listStarts q s = false → listStarts q (replaceAll s p r) = false := by
  intro n
  induction n with
  | zero =>
    intro s q hs hq _ _
    have hnil : s = [] := List.eq_nil_of_length_eq_zero (Nat.le_zero.mp hs)
    subst hnil
    rw [replaceAll_nil]
    exact listStarts_ne_nil_nil hq
  | succ n ih =>
    intro s q hs hq hdisj hns
    cases s with
    | nil =>
      rw [replaceAll_nil]
      exact listStarts_ne_nil_nil hq
    | cons c cs =>
      have hcs : cs.length ≤ n := by
        simp only [List.length_cons] at hs
        omega
      by_cases hb : p ≠ [] ∧ listStarts p (c :: cs) = true
      · rw [replaceAll_pos c cs p r hb.1 hb.2]
        cases q with
        | nil => exact absurd rfl hq
        | cons a qs =>
          cases r with
          | nil => exact absurd rfl hr
          | cons b rs =>
            have hab : (a == b) = false := by
              rw [beq_eq_false_iff_ne]
              intro he
              exact hdisj a (List.mem_cons_self a qs) (he ▸ List.mem_cons_self b rs)
            simp [listStarts, hab]
      · rw [replaceAll_neg c cs p r hb]
        cases q with
        | nil => exact absurd rfl hq
        | cons a qs =>
          by_cases hac : a = c
          · subst hac
            cases hv : listStarts qs cs with
            | true => simp [listStarts, hv] at hns
            | false =>
              have hqsne : qs ≠ [] := by
                intro he
                subst he
                simp [listStarts] at hns
              have hres := ih cs qs hcs hqsne
                (fun x hx => hdisj x (List.mem_cons_of_mem a hx)) hv
              simp [listStarts, hres]
          · have hab : (a == c) = false := beq_eq_false_iff_ne.mpr hac
            simp [listStarts, hab]

/-- A pattern that does not occur in a string still does not occur after
replacement of another pattern, provided it shares no character with the
mask. -/
theorem keepNotOccurs (p r : List Char) (hr : r ≠ []) :
    ∀ n s q, s.length ≤ n → q ≠ [] → (∀ a ∈ q, a ∉ r) →
      occursIn q s = false → occursIn q (replaceAll s p r) = false := by
  intro n
  induction n with
  | zero =>
    intro s q hs hq _ _
    have hnil : s = [] := List.eq_nil_of_length_eq_zero (Nat.le_zero.mp hs)
    subst hnil
    rw [replaceAll_nil]
    exact occursIn_nil hq
  | succ n ih =>
    intro s q hs hq hdisj hno
    cases s with
    | nil =>
      rw [replaceAll_nil]
      exact occursIn_nil hq
    | cons c cs =>
      have hcs : cs.length ≤ n := by
        simp only [List.length_cons] at hs
        omega
      rw [occursIn_cons] at hno
      have hno1 : listStarts q (c :: cs) = false := (Bool.or_eq_false_iff.mp hno).1
      have hno2 : occursIn q cs = false := (Bool.or_eq_false_iff.mp hno).2
      by_cases hb : p ≠ [] ∧ listStarts p (c :: cs) = true
      · rw [replaceAll_pos c cs p r hb.1 hb.2]
        have hlp : 1 ≤ p.length := by
          cases hp : p with
          | nil => exact absurd hp hb.1
          | cons x xs => simp
        have hdroplen : ((c :: cs).drop p.length).length ≤ n := by
          simp only [List.length_drop, List.length_cons]
          omega
        have hdropocc : occursIn q ((c :: cs).drop p.length) = false :=
          occursIn_drop_false p.length (c :: cs) (by rw [occursIn_cons]; simp [hno1, hno2])
        exact occursIn_append_false hq r _ hdisj
          (ih ((c :: cs).drop p.length) q hdroplen hq hdisj hdropocc)
      · rw [replaceAll_neg c cs p r hb, occursIn_cons]
        have h1 : listStarts q (c :: replaceAll cs p r) = false := by
          have := keepNotStarts p r hr (n + 1) (c :: cs) q hs hq hdisj hno1
          rwa [replaceAll_neg c cs p r hb] at this
        have h2 := ih cs q hcs hq hdisj hno2
        simp [h1, h2]

/-- After replacing a pattern by a mask sharing no character with it, the
pattern no longer occurs anywhere in the string. -/
theorem removedNotOccurs (p r : List Char) (hp : p ≠ []) (hr : r ≠ [])
    (hdisj : ∀ a ∈ p, a ∉ r) :
    ∀ n s, s.length ≤ n → occursIn p (replaceAll s p r) = false := by
  intro n
  induction n with
  | zero =>
    intro s hs
    have hnil : s = [] := List.eq_nil_of_length_eq_zero (Nat.le_zero.mp hs)
    subst hnil
    rw [replaceAll_nil]
    exact occursIn_nil hp
  | succ n ih =>
    intro s hs
    cases s with
    | nil =>
      rw [replaceAll_nil]
      exact occursIn_nil hp
    | cons c cs =>
      have hcs : cs.length ≤ n := by
        simp only [List.length_cons] at hs
        omega
      by_cases hb : p ≠ [] ∧ listStarts p (c :: cs) = true
      · rw [replaceAll_pos c cs p r hb.1 hb.2]
        have hlp : 1 ≤ p.length := by
          cases hpv : p with
          | nil => exact absurd hpv hb.1
          | cons x xs => simp
        have hdroplen : ((c :: cs).drop p.length).length ≤ n := by
          simp only [List.length_drop, List.length_cons]
          omega
        exact occursIn_append_false hp r _ hdisj (ih _ hdroplen)
      · have hstart : listStarts p (c :: cs) = false := by
          rcases not_and_or.mp hb with h | h
          · exact absurd hp (by simpa using h)
          · cases hv : listStarts p (c :: cs) with
            | true => exact absurd hv h
            | false => rfl
        rw [replaceAll_neg c cs p r hb, occursIn_cons]
        have h1 : listStarts p (c :: replaceAll cs p r) = false := by
          have := keepNotStarts p r hr (n + 1) (c :: cs) p hs hp hdisj hstart
          rwa [replaceAll_neg c cs p r hb] at this
        have h2 := ih cs hcs
        simp [h1, h2]

theorem string_ne_empty_data {s : String} (h : s ≠ "") : s.data ≠ [] := by
  intro he
  apply h
  cases s with
  | mk d =>
    cases he
    rfl

theorem foldl_redactStep_keep :
    ∀ (rest : List String) (out : String) (q : List Char), q ≠ [] →
      (∀ a ∈ q, a ∉ maskToken) → occursIn q out.data = false →
      occursIn q (rest.foldl redactStep out).data = false
  | [], _, _, _, _, h => h
  | m :: rest, out, q, hq, hd, h => by
    rw [List.foldl_cons]
    apply foldl_redactStep_keep rest (redactStep out m) q hq hd
    unfold redactStep
    by_cases hm : m = ""
    · simpa [hm] using h
    · simp only [if_neg hm]
      exact keepNotOccurs m.data maskToken (by decide) out.data.length out.data q
        le_rfl hq hd h

theorem foldl_redactStep_free :
    ∀ (ms : List String) (out : String),
      (∀ m ∈ ms, m ≠ "" ∧ (∀ a ∈ m.data, a ∉ maskToken)) →
      ∀ m ∈ ms, occursIn m.data ((ms.foldl redactStep out)).data = false
  | [], _, _, m, hm => absurd hm (List.not_mem_nil m)
  | m0 :: rest, out, h, m, hm => by
    rw [List.foldl_cons]
    rcases List.mem_cons.mp hm with rfl | hmr
    · have h0 := h m (List.mem_cons_self m rest)
      have hne : m.data ≠ [] := string_ne_empty_data h0.1
      apply foldl_redactStep_keep rest (redactStep out m) m.data hne h0.2
      unfold redactStep
      simp only [if_neg h0.1]
      exact removedNotOccurs m.data maskToken hne (by decide) h0.2 out.data.length
        out.data le_rfl
    · exact foldl_redactStep_free rest (redactStep out m0)
        (fun m' hm' => h m' (List.mem_cons_of_mem m0 hm')) m hmr

/-- Core redaction lemma: if no match string contains the mask character,
no match string occurs in the redacted output. -/
theorem redact_free (text : String) (ms : List String)
    (h : ∀ m ∈ ms, m ≠ "" ∧ '*' ∉ m.data) :
    ∀ m ∈ ms, occursIn m.data (redact text ms).data = false := by
  intro m hm
  have hm' : m ∈ ms.dedup := List.mem_dedup.mpr hm
  have hall : ∀ m' ∈ ms.dedup, m' ≠ "" ∧ (∀ a ∈ m'.data, a ∉ maskToken) := by
    intro m' hmem
    have hh := h m' (List.mem_dedup.mp hmem)
    refine ⟨hh.1, ?_⟩
    intro a ha hmask
    have haeq : a = '*' := by simpa [maskToken] using hmask
    exact hh.2 (haeq ▸ ha)
  exact foldl_redactStep_free ms.dedup text hall m hm'

/-! Sortedness facts for `sortedMatches` and `sortByTimeDesc`. -/

theorem sortedMatches_perm {d1 d2 : List Detection} (h : d1.Perm d2) :
    sortedMatches d1 = sortedMatches d2 := by
  have hraw : (rawMatches d1).Perm (rawMatches d2) := h.filterMap _
  have hd : ((rawMatches d1).dedup).Perm ((rawMatches d2).dedup) := hraw.dedup
  apply List.eq_of_perm_of_sorted (r := strLe)
  · exact ((List.perm_insertionSort strLe _).trans hd).trans
      (List.perm_insertionSort strLe _).symm
  · exact List.sorted_insertionSort strLe _
  · exact List.sorted_insertionSort strLe _

theorem mem_sortedMatches_ne {m : String} {dets : List Detection}
    (h : m ∈ sortedMatches dets) : m ≠ "" := by
  have h1 : m ∈ (rawMatches dets).dedup :=
    ((List.perm_insertionSort strLe _).mem_iff).mp h
  have h2 : m ∈ rawMatches dets := List.mem_dedup.mp h1
  unfold rawMatches at h2
  rcases List.mem_filterMap.mp h2 with ⟨d, _, hd⟩
  cases hm : d.matched with
  | none => rw [hm] at hd; cases hd
  | some v =>
    rw [hm] at hd
    by_cases hv : v = ""
    · simp [hv] at hd
    · simp [hv] at hd
      exact hd ▸ hv

/-- Newest-first order on events (descending detection time). -/
def newestFirst (x y : Event) : Prop := y.found_at ≤ x.found_at

theorem insertByTime_perm (a : Event) : ∀ l : List Event, (insertByTime a l).Perm (a :: l)
  | [] => List.Perm.refl _
  | b :: bs => by
    unfold insertByTime
    by_cases h : b.found_at ≤ a.found_at
    · rw [if_pos h]
    · rw [if_neg h]
      exact (List.Perm.cons b (insertByTime_perm a bs)).trans (List.Perm.swap a b bs)

theorem sortByTimeDesc_perm : ∀ l : List Event, (sortByTimeDesc l).Perm l
  | [] => List.Perm.refl _
  | a :: rest => by
    unfold sortByTimeDesc
    exact (insertByTime_perm a (sortByTimeDesc rest)).trans
      (List.Perm.cons a (sortByTimeDesc_perm rest))

theorem insertByTime_pairwise (a : Event) :
    ∀ l : List Event, l.Pairwise newestFirst → (insertByTime a l).Pairwise newestFirst
  | [], _ => by simp [insertByTime, newestFirst]
  | b :: bs, h => by
    rw [List.pairwise_cons] at h
    unfold insertByTime
    by_cases hba : b.found_at ≤ a.found_at
    · rw [if_pos hba]
      rw [List.pairwise_cons]
      refine ⟨?_, List.pairwise_cons.mpr h⟩
      intro y hy
      rcases List.mem_cons.mp hy with rfl | hybs
      · exact hba
      · exact le_trans (h.1 y hybs) hba
    · rw [if_neg hba]
      rw [List.pairwise_cons]
      constructor
      · intro y hy
        have hmem : y ∈ a :: bs := (insertByTime_perm a bs).mem_iff.mp hy
        rcases List.mem_cons.mp hmem with rfl | hybs
        · exact Nat.le_of_not_le hba
        · exact h.1 y hybs
      · exact insertByTime_pairwise a bs h.2

theorem sortByTimeDesc_pairwise : ∀ l : List Event, (sortByTimeDesc l).Pairwise newestFirst
  | [] => List.Pairwise.nil
  | a :: rest => insertByTime_pairwise a _ (sortByTimeDesc_pairwise rest)

theorem matchesQuery_lt {q : EventQuery} {e : Event} {t : Nat}
    (hlt : (buildTimeCond q).lt = some t) (h : matchesQuery q e = true) :
    e.found_at < t := by
  unfold matchesQuery at h
  simp only [Bool.and_eq_true] at h
  have h6 := h.2.2
  rw [hlt] at h6
  exact of_decide_eq_true h6

theorem pyLower_ne_empty {s : String} (h : s ≠ "") : pyLower s ≠ "" := by
  intro he
  apply h
  have h1 : s.data.map pyCharLower = [] := congrArg String.data he
  have h2 : s.data = [] := List.map_eq_nil_iff.mp h1
  cases s
  cases h2
  rfl

/-! Concrete fixtures used by witnesses and counterexamples. -/

def cont0 : Container := ⟨some "channel", some "C1", some "general", none⟩

def meta0 : SourceMeta := ⟨some "1", some "1", some "U1", some "U1"⟩

def detA : Detection := ⟨some "Password", some "hunter2"⟩

def detB : Detection := ⟨some "Credit Card", some "4111-1111-1111-1111"⟩

def detNote : Detection := ⟨some "internal-note", some "note-match"⟩

def medEvent : Event := make_event "slack" cont0 "a note" [detNote] meta0 0

def ccEvent : Event := make_event "slack" cont0 "card 4111-1111-1111-1111" [detB] meta0 0

def pwEvent : Event := make_event "slack" cont0 "my password is hunter2" [detA] meta0 0

def ccFilter : WebhookFilters := ⟨none, none, some (some ["Credit Card"]), false⟩

def sevHighFilter : WebhookFilters := ⟨none, some (some "high"), none, false⟩

def noFilters : WebhookFilters := ⟨none, none, none, false⟩

def evT (i t : Nat) : Event :=
  { fingerprint := toString i, platform := "slack", container := cont0, found_at := t,
    severity := "Medium", detections := [], snippet_redacted := "", status := initialStatus,
    source_meta := meta0 }

def ev1 : Event := evT 1 10

def ev2 : Event := evT 2 20

def ev3 : Event := evT 3 30

def ev4 : Event := evT 4 40

def ev5 : Event := evT 5 50

def store5 : List Event := [ev3, ev1, ev5, ev2, ev4]

def q5 : EventQuery := ⟨none, none, none, none, none, 2, none⟩

/-! Claim theorems -/

/-- C1: for every platform, container (with its id), pointer and detection
list, the fingerprint produced by `make_event` equals the SHA-256 hex
digest of "platform|container.id|pointer|" followed by the comma-joined
sorted set of distinct non-empty detection match strings; it is the same
across repeated calls, invariant under permutation of the detections list,
and independent of the wall-clock time (`found_at`) and of the scanned
text. -/
theorem make_event_fingerprint_det (platform text text' : String) (container : Container)
    (cid : String) (hid : container.id = some cid) (meta : SourceMeta) (ptr : String)
    (hptr : meta.pointer = some ptr) (dets dets' : List Detection)
    (hperm : dets.Perm dets') (t1 t2 : Nat) :
    (make_event platform container text dets meta t1).fingerprint
        = sha256 (platform ++ "|" ++ cid ++ "|" ++ ptr ++ "|" ++
            String.intercalate "," (sortedMatches dets))
      ∧ (make_event platform container text dets meta t1).fingerprint
        = (make_event platform container text' dets' meta t2).fingerprint := by
  constructor
  · show sha256 (platform ++ "|" ++ pyFormatOpt container.id ++ "|" ++
        meta.pointer.getD "" ++ "|" ++ String.intercalate "," (sortedMatches dets)) = _
    rw [hid, hptr]
    rfl
  · show sha256 (platform ++ "|" ++ pyFormatOpt container.id ++ "|" ++
        meta.pointer.getD "" ++ "|" ++ String.intercalate "," (sortedMatches dets))
      = sha256 (platform ++ "|" ++ pyFormatOpt container.id ++ "|" ++
        meta.pointer.getD "" ++ "|" ++ String.intercalate "," (sortedMatches dets'))
    rw [sortedMatches_perm hperm]

/-- C1 witness: the theorem instantiated at a concrete pair of calls with
the detection list permuted and a different text and time. -/
theorem make_event_fingerprint_det_witness :
    (make_event "slack" cont0 "text one" [detA, detB] meta0 5).fingerprint
        = sha256 ("slack" ++ "|" ++ "C1" ++ "|" ++ "1" ++ "|" ++
            String.intercalate "," (sortedMatches [detA, detB]))
      ∧ (make_event "slack" cont0 "text one" [detA, detB] meta0 5).fingerprint
        = (make_event "slack" cont0 "text two" [detB, detA] meta0 99).fingerprint :=
  make_event_fingerprint_det "slack" "text one" "text two" cont0 "C1" rfl meta0 "1" rfl
    [detA, detB] [detB, detA] (List.Perm.swap detB detA []) 5 99

/-- C2: inserting the same Event twice through the insert-if-absent gate
(`update_one` with `$setOnInsert` and `upsert=True` on the unique
`fingerprint` index) yields exactly one stored record equal to the
original event, the first insert reports new, the second reports not-new
and leaves the store completely unchanged. -/
theorem insertIfAbsent_idem (store : List Event) (ev : Event)
    (h : ∀ e ∈ store, e.fingerprint ≠ ev.fingerprint) :
    (insertIfAbsent store ev).2 = true
      ∧ (insertIfAbsent (insertIfAbsent store ev).1 ev).2 = false
      ∧ (insertIfAbsent (insertIfAbsent store ev).1 ev).1 = (insertIfAbsent store ev).1
      ∧ (insertIfAbsent store ev).1.filter (fun e => e.fingerprint == ev.fingerprint)
          = [ev] := by
  have hany : store.any (fun e => e.fingerprint == ev.fingerprint) = false := by
    rw [List.any_eq_false]
    intro e he
    simpa using h e he
  have h1 : insertIfAbsent store ev = (store ++ [ev], true) := by
    unfold insertIfAbsent
    rw [hany]
    simp
  have hany2 : (store ++ [ev]).any (fun e => e.fingerprint == ev.fingerprint) = true := by
    rw [List.any_eq_true]
    exact ⟨ev, by simp, by simp⟩
  have h2 : insertIfAbsent (store ++ [ev]) ev = (store ++ [ev], false) := by
    unfold insertIfAbsent
    rw [hany2]
    simp
  have hfil : (store ++ [ev]).filter (fun e => e.fingerprint == ev.fingerprint) = [ev] := by
    rw [List.filter_append]
    have hnil : store.filter (fun e => e.fingerprint == ev.fingerprint) = [] := by
      rw [List.filter_eq_nil_iff]
      intro e he
      simpa using h e he
    rw [hnil]
    simp
  rw [h1]
  exact ⟨rfl, by rw [h2], by rw [h2], hfil⟩

def evW : Event :=
  { fingerprint := "fp1", platform := "slack", container := cont0, found_at := 3,
    severity := "High", detections := [detA], snippet_redacted := "my password is ****",
    status := initialStatus, source_meta := meta0 }

/-- C2 witness: the theorem instantiated at the empty store and a concrete
event. -/
theorem insertIfAbsent_idem_witness :
    (insertIfAbsent [] evW).2 = true
      ∧ (insertIfAbsent (insertIfAbsent [] evW).1 evW).2 = false
      ∧ (insertIfAbsent (insertIfAbsent [] evW).1 evW).1 = (insertIfAbsent [] evW).1
      ∧ (insertIfAbsent [] evW).1.filter (fun e => e.fingerprint == evW.fingerprint)
          = [evW] :=
  insertIfAbsent_idem [] evW (by intro e he; cases he)

/-- C7 counterexample: the claim states the severity values "high" and
"medium"; the code produces the capitalized strings "High" and "Medium",
so a credential-labelled detection does not yield severity "high", nor a
benign one "medium". -/
theorem make_event_severity_cex :
    (make_event "slack" cont0 "t" [⟨some "password-reset-token", some "x"⟩] meta0 0).severity
        = "High"
      ∧ (make_event "slack" cont0 "t" [⟨some "password-reset-token", some "x"⟩] meta0 0).severity
        ≠ "high"
      ∧ (make_event "slack" cont0 "t" [⟨some "internal-note", some "x"⟩] meta0 0).severity
        = "Medium"
      ∧ (make_event "slack" cont0 "t" [⟨some "internal-note", some "x"⟩] meta0 0).severity
        ≠ "medium" := by
  refine ⟨by decide, by decide, by decide, by decide⟩

/-- C7 (amended): if any detection label, lower-cased, starts with one of
the credential-like prefixes "password", "private", "api", "credit", the
Event's severity is the string "High" (capitalized, not "high");
otherwise it is "Medium" (not "medium"). -/
theorem make_event_severity (platform : String) (container : Container) (text : String)
    (dets : List Detection) (meta : SourceMeta) (now : Nat) :
    ((∃ d ∈ dets, ∃ p ∈ (["password", "private", "api", "credit"] : List String),
        listStarts p.data (pyLower (d.label.getD "")).data = true) →
      (make_event platform container text dets meta now).severity = "High")
    ∧ ((∀ d ∈ dets, ∀ p ∈ (["password", "private", "api", "credit"] : List String),
        listStarts p.data (pyLower (d.label.getD "")).data = false) →
      (make_event platform container text dets meta now).severity = "Medium") := by
  constructor
  · intro hex
    show (if dets.any (fun d =>
        pyStartsWithAny (pyLower (d.label.getD "")) ["password", "private", "api", "credit"])
      then "High" else "Medium") = "High"
    rw [if_pos]
    rw [List.any_eq_true]
    rcases hex with ⟨d, hd, p, hp, hstart⟩
    refine ⟨d, hd, ?_⟩
    unfold pyStartsWithAny
    rw [List.any_eq_true]
    exact ⟨p, hp, hstart⟩
  · intro hall
    show (if dets.any (fun d =>
        pyStartsWithAny (pyLower (d.label.getD "")) ["password", "private", "api", "credit"])
      then "High" else "Medium") = "Medium"
    rw [if_neg]
    rw [List.any_eq_true]
    rintro ⟨d, hd, hany⟩
    unfold pyStartsWithAny at hany
    rw [List.any_eq_true] at hany
    rcases hany with ⟨p, hp, hstart⟩
    rw [hall d hd p hp] at hstart
    cases hstart

/-- C7 witness: the amended theorem instantiated at the two labels named
by the spec. -/
theorem make_event_severity_witness :
    (make_event "slack" cont0 "t" [⟨some "password-reset-token", some "x"⟩] meta0 0).severity
        = "High"
      ∧ (make_event "slack" cont0 "t" [⟨some "internal-note", some "x"⟩] meta0 0).severity
        = "Medium" :=
  ⟨(make_event_severity "slack" cont0 "t" [⟨some "password-reset-token", some "x"⟩] meta0 0).1
      (by decide),
   (make_event_severity "slack" cont0 "t" [⟨some "internal-note", some "x"⟩] meta0 0).2
      (by decide)⟩

/-- C3 counterexample: with only the Jira adapter raising, the GLPI,
ServiceNow and both Slack alert adapters are never invoked — one
adapter's exception does prevent others from running. -/
theorem fanOut_not_isolated_cex :
    (fun s => s == Sink.jira) Sink.jira = true
      ∧ Sink.glpi ∉ fanOutInvoked (fun s => s == Sink.jira)
      ∧ Sink.snow ∉ fanOutInvoked (fun s => s == Sink.jira)
      ∧ Sink.slackApi ∉ fanOutInvoked (fun s => s == Sink.jira)
      ∧ Sink.slackWebhook ∉ fanOutInvoked (fun s => s == Sink.jira)
      ∧ Sink.webhooks ∈ fanOutInvoked (fun s => s == Sink.jira) := by
  refine ⟨by decide, by decide, by decide, by decide, by decide, by decide⟩

/-- C3 (amended): the six sink adapters run in two protected blocks, not
independently.  The five ticket/alert adapters share one try block: each
is invoked exactly when no earlier adapter of that block raised; the
registered-webhook broadcast runs in its own try block and is always
invoked, regardless of failures in the first block. -/
theorem fanOut_groups (raises : Sink → Bool) :
    Sink.jira ∈ fanOutInvoked raises
      ∧ (Sink.glpi ∈ fanOutInvoked raises ↔ raises Sink.jira = false)
      ∧ (Sink.snow ∈ fanOutInvoked raises ↔
          (raises Sink.jira = false ∧ raises Sink.glpi = false))
      ∧ (Sink.slackApi ∈ fanOutInvoked raises ↔
          (raises Sink.jira = false ∧ raises Sink.glpi = false ∧ raises Sink.snow = false))
      ∧ (Sink.slackWebhook ∈ fanOutInvoked raises ↔
          (raises Sink.jira = false ∧ raises Sink.glpi = false ∧ raises Sink.snow = false
            ∧ raises Sink.slackApi = false))
      ∧ Sink.webhooks ∈ fanOutInvoked raises := by
  cases hj : raises Sink.jira <;> cases hg : raises Sink.glpi <;>
    cases hs : raises Sink.snow <;> cases ha : raises Sink.slackApi <;>
      cases hw : raises Sink.slackWebhook <;>
        simp [fanOutInvoked, runProtectedGroup, ticketGroup, hj, hg, hs, ha, hw]

def fetchCex : Option String → Except Unit (Page Nat) := fun c =>
  match c with
  | none => Except.ok ⟨[1], some "c1"⟩
  | some s => if s = "c1" then Except.ok ⟨[2], some "c2"⟩ else Except.ok ⟨[], none⟩

/-- A sink client whose report says every record of every batch failed
(as the Splunk/Elastic clients report on a non-2xx response, without
raising). -/
def sendRejectAll : List Nat → Except Unit (Nat × Nat) := fun evs => Except.ok (0, evs.length)

/-- C4 counterexample: with a sink client that returns (does not raise)
but reports every batch as failed, the walker still advances the
persisted cursor past both pages — the cursor is advanced although the
sink never reported a batch accepted, so failed pages are skipped, not
retried. -/
theorem run_export_advance_cex :
    run_export fetchCex sendRejectAll 10 none = ExportOutcome.finished (some "c2") 0 2 2
      ∧ sendRejectAll [1] = Except.ok (0, 1)
      ∧ sendRejectAll [2] = Except.ok (0, 1) :=
  ⟨by decide, rfl, rfl⟩

/-- C4 (amended): the cursor is advanced exactly when the sink call
returns without raising (regardless of the ok/failed counts it reports).
When the sink call raises on page 2, the exception propagates, the
persisted cursor stays at page 1's continuation token, and the next run
starts again at page 2 (re-sending page 2's batch, not page 3's). -/
theorem run_export_at_least_once (α : Type) (fetch : Option String → Except Unit (Page α))
    (send send' : List α → Except Unit (Nat × Nat)) (fuel fuel' : Nat)
    (p1 p2 : Page α) (c1 : String) (r r2 : Nat × Nat)
    (h1 : fetch none = Except.ok p1) (h1e : p1.events ≠ [])
    (h1c : p1.next_cursor = some c1) (h1s : send p1.events = Except.ok r)
    (h2 : fetch (some c1) = Except.ok p2) (h2e : p2.events ≠ [])
    (h2s : send p2.events = Except.error ()) :
    run_export fetch send (fuel + 2) none = ExportOutcome.raised (some c1)
      ∧ (p2.next_cursor = none → send' p2.events = Except.ok r2 →
          run_export fetch send' (fuel' + 1) (some c1)
            = ExportOutcome.finished (some c1) r2.1 r2.2 1) := by
  obtain ⟨ra, rb⟩ := r
  obtain ⟨r2a, r2b⟩ := r2
  have he1 : p1.events.isEmpty = false := by
    cases hev : p1.events with
    | nil => exact absurd hev h1e
    | cons a l => rfl
  have he2 : p2.events.isEmpty = false := by
    cases hev : p2.events with
    | nil => exact absurd hev h2e
    | cons a l => rfl
  constructor
  · show runExportLoop fetch send (fuel + 1 + 1) none none 0 0 0 = _
    simp only [runExportLoop, h1, he1, h1s, h1c]
    simp only [runExportLoop, h2, he2, h2s]
    simp
  · intro hn hs'
    show runExportLoop fetch send' (fuel' + 1) (some c1) (some c1) 0 0 0 = _
    simp only [runExportLoop, h2, he2, hs', hn]
    simp

def fetchW : Option String → Except Unit (Page Nat) := fun c =>
  match c with
  | none => Except.ok ⟨[1], some "c1"⟩
  | some s => if s = "c1" then Except.ok ⟨[2], none⟩ else Except.ok ⟨[], none⟩

def sendW : List Nat → Except Unit (Nat × Nat) := fun evs =>
  if evs = [2] then Except.error () else Except.ok (evs.length, 0)

def sendOkAll : List Nat → Except Unit (Nat × Nat) := fun evs => Except.ok (evs.length, 0)

/-- C4 witness: the amended theorem instantiated with a two-page source
whose sink raises on page 2, then a re-run whose sink accepts it. -/
theorem run_export_at_least_once_witness :
    run_export fetchW sendW 2 none = ExportOutcome.raised (some "c1")
      ∧ run_export fetchW sendOkAll 1 (some "c1")
          = ExportOutcome.finished (some "c1") 1 0 1 := by
  have h := run_export_at_least_once Nat fetchW sendW sendOkAll 0 0
    ⟨[1], some "c1"⟩ ⟨[2], none⟩ "c1" (1, 0) (1, 0)
    rfl (by decide) rfl rfl rfl (by decide) rfl
  exact ⟨h.1, h.2 rfl rfl⟩

theorem replaceAll_rep_len : ∀ n : Nat,
    replaceAll (List.replicate n 'a') ['a'] maskToken = List.replicate (4 * n) '*'
  | 0 => by simp [replaceAll_nil]
  | n + 1 => by
    rw [List.replicate_succ]
    rw [replaceAll_pos 'a' (List.replicate n 'a') ['a'] maskToken (by simp)
      (by simp [listStarts])]
    rw [show (('a' :: List.replicate n 'a').drop (['a'] : List Char).length)
        = List.replicate n 'a' from rfl]
    rw [replaceAll_rep_len n]
    rw [show 4 * (n + 1) = 4 + 4 * n by ring]
    rw [List.replicate_add]
    rfl

def textAs : String := ⟨List.replicate 4000 'a'⟩

def detAs : Detection := ⟨some "x", some "a"⟩

/-- C5 counterexample: (i) with detection match "*" on text "*", the
redacted snippet is "****", which still contains the raw matched string
"*"; (ii) with a 4000-character snippet matched by the single-character
string "a", the redacted snippet has 16000 characters, far above both the
~900-character bound claimed for the redacted snippet and the 4000
character raw truncation bound. -/
theorem make_event_redaction_cex :
    occursIn ("*" : String).data
        ((make_event "slack" cont0 "*" [⟨some "x", some "*"⟩] meta0 0).snippet_redacted).data
        = true
      ∧ (make_event "slack" cont0 textAs [detAs] meta0 0).snippet_redacted.length = 16000
      ∧ 900 < 16000 ∧ 4000 < 16000 := by
  refine ⟨?_, ?_, by norm_num, by norm_num⟩
  · have hred : (make_event "slack" cont0 "*" [⟨some "x", some "*"⟩] meta0 0).snippet_redacted
        = "****" := by
      show redact ⟨("*" : String).data.take 4000⟩ (sortedMatches [⟨some "x", some "*"⟩]) = "****"
      have hs : sortedMatches [⟨some "x", some "*"⟩] = ["*"] := by decide
      rw [hs]
      have hd : (["*"] : List String).dedup = ["*"] :=
        List.dedup_cons_of_not_mem (by simp)
      show ((["*"] : List String).dedup).foldl redactStep ⟨("*" : String).data.take 4000⟩ = "****"
      rw [hd]
      show redactStep ⟨("*" : String).data.take 4000⟩ "*" = "****"
      unfold redactStep
      rw [if_neg (by decide)]
      show String.mk (replaceAll ['*'] ['*'] maskToken) = "****"
      rw [replaceAll_pos '*' [] ['*'] maskToken (by simp) (by decide)]
      rw [show (['*'] : List Char).drop (['*'] : List Char).length = [] from rfl]
      rw [replaceAll_nil]
      rfl
    rw [hred]
    decide
  · show (redact ⟨textAs.data.take 4000⟩ (sortedMatches [detAs])).length = 16000
    have hs : sortedMatches [detAs] = ["a"] := by decide
    have htake : textAs.data.take 4000 = List.replicate 4000 'a' := by
      show (List.replicate 4000 'a').take 4000 = List.replicate 4000 'a'
      rw [List.take_replicate, Nat.min_self]
    rw [hs, htake]
    have hd : (["a"] : List String).dedup = ["a"] :=
      List.dedup_cons_of_not_mem (by simp)
    show (((["a"] : List String).dedup).foldl redactStep ⟨List.replicate 4000 'a'⟩).length = 16000
    rw [hd]
    show (redactStep ⟨List.replicate 4000 'a'⟩ "a").length = 16000
    unfold redactStep
    rw [if_neg (by decide)]
    show (String.mk (replaceAll (List.replicate 4000 'a') ['a'] maskToken)).length = 16000
    rw [replaceAll_rep_len 4000]
    show (List.replicate (4 * 4000) '*').length = 16000
    rw [List.length_replicate]

/-- C5 (amended): the raw snippet is the text truncated to at most 4000
characters; redaction replaces every distinct non-empty matched string by
the mask "****"; whenever no matched string contains the mask character
'*', the redacted snippet contains no occurrence of any raw matched
string.  No ~900-character bound is enforced on the redacted result (it
can grow beyond the raw 4000-character bound, see the counterexample). -/
theorem make_event_redaction (platform : String) (container : Container) (text : String)
    (dets : List Detection) (meta : SourceMeta) (now : Nat)
    (hstar : ∀ m ∈ sortedMatches dets, '*' ∉ m.data) :
    (∀ m ∈ sortedMatches dets,
        occursIn m.data
          ((make_event platform container text dets meta now).snippet_redacted).data = false)
      ∧ (make_event platform container text dets meta now).snippet_redacted
          = redact ⟨text.data.take 4000⟩ (sortedMatches dets)
      ∧ (text.data.take 4000).length ≤ 4000 := by
  refine ⟨?_, rfl, by simp⟩
  intro m hm
  show occursIn m.data (redact ⟨text.data.take 4000⟩ (sortedMatches dets)).data = false
  exact redact_free ⟨text.data.take 4000⟩ (sortedMatches dets)
    (fun m' hm' => ⟨mem_sortedMatches_ne hm', hstar m' hm'⟩) m hm

/-- C5 witness: the amended theorem instantiated at a password leak whose
match string contains no mask character. -/
theorem make_event_redaction_witness :
    (∀ m ∈ sortedMatches [detA],
        occursIn m.data
          ((make_event "slack" cont0 "my password is hunter2" [detA] meta0 7).snippet_redacted).data
          = false)
      ∧ (make_event "slack" cont0 "my password is hunter2" [detA] meta0 7).snippet_redacted
          = redact ⟨("my password is hunter2" : String).data.take 4000⟩ (sortedMatches [detA])
      ∧ (("my password is hunter2" : String).data.take 4000).length ≤ 4000 :=
  make_event_redaction "slack" cont0 "my password is hunter2" [detA] meta0 7 (by decide)

/-- Characterization of `match_filters`: a subscription matches exactly
when every filter key that is present agrees with the event — platform
and severity up to case, labels by at least one requested label occurring
among the event's detection labels.  A wholly absent key imposes nothing;
an empty filters dict therefore matches everything. -/
theorem match_filters_iff (e : Event) (f : WebhookFilters) :
    match_filters e f = true ↔
      ((∀ v, f.platform = some v → pyLower (v.getD "") = pyLower e.platform)
        ∧ (∀ v, f.severity = some v → pyLower (v.getD "") = pyLower e.severity)
        ∧ (∀ v, f.labels = some v → ∃ l ∈ v.getD [], l ∈ eventLabels e)) := by
  obtain ⟨fp, fs, fl, fo⟩ := f
  unfold match_filters filtersIsEmpty
  cases fp <;> cases fs <;> cases fl <;> cases fo <;>
    simp [List.any_eq_true, beq_iff_eq, and_assoc]

/-- C6: `match_filters` returns true iff no filters are set or every set
filter field agrees (platform and severity case-insensitively, labels by
intersection with the event's detection labels); in particular a
subscription filtering severity "high" never matches a medium-severity
event, a subscription filtering labels ["Credit Card"] matches an event
detected as Credit Card but not one detected only as Password, and a
subscription with no filters matches every event. -/
theorem match_filters_spec :
    (∀ (e : Event) (f : WebhookFilters),
        match_filters e f = true ↔
          ((∀ v, f.platform = some v → pyLower (v.getD "") = pyLower e.platform)
            ∧ (∀ v, f.severity = some v → pyLower (v.getD "") = pyLower e.severity)
            ∧ (∀ v, f.labels = some v → ∃ l ∈ v.getD [], l ∈ eventLabels e)))
      ∧ (∀ e : Event, pyLower e.severity = "medium" → match_filters e sevHighFilter = false)
      ∧ match_filters ccEvent ccFilter = true
      ∧ match_filters pwEvent ccFilter = false
      ∧ (∀ e : Event, match_filters e noFilters = true) := by
  refine ⟨match_filters_iff, ?_, by decide, by decide, ?_⟩
  · intro e he
    cases hv : match_filters e sevHighFilter with
    | false => rfl
    | true =>
      have h := (match_filters_iff e sevHighFilter).mp hv
      have h2 := h.2.1 (some "high") rfl
      rw [he] at h2
      have h2' : pyLower "high" = "medium" := h2
      rw [show pyLower "high" = "high" from by decide] at h2'
      exact absurd h2' (by decide)
  · intro e
    unfold match_filters
    rw [show filtersIsEmpty noFilters = true from by decide]
    rfl

/-- C6 witness: the characterization applied to a concrete medium-severity
event and the no-filters subscription. -/
theorem match_filters_spec_witness :
    match_filters medEvent sevHighFilter = false
      ∧ match_filters medEvent noFilters = true :=
  ⟨match_filters_spec.2.1 medEvent (by decide),
   match_filters_spec.2.2.2.2 medEvent⟩

/-- C10: a filter key that is present but empty excludes rather than
being ignored — a "platform" (resp. "severity") key mapped to None or ""
never matches an event whose platform (resp. severity) is non-empty, and
a "labels" key mapped to None or [] matches no event at all. -/
theorem match_filters_empty_values :
    (∀ (e : Event) (f : WebhookFilters),
        (f.platform = some none ∨ f.platform = some (some "")) → e.platform ≠ "" →
        match_filters e f = false)
      ∧ (∀ (e : Event) (f : WebhookFilters),
          (f.severity = some none ∨ f.severity = some (some "")) → e.severity ≠ "" →
          match_filters e f = false)
      ∧ (∀ (e : Event) (f : WebhookFilters),
          (f.labels = some none ∨ f.labels = some (some [])) →
          match_filters e f = false) := by
  refine ⟨?_, ?_, ?_⟩
  · intro e f hf hne
    have hgd : ∃ v, f.platform = some v ∧ v.getD "" = "" := by
      rcases hf with h | h
      · exact ⟨none, h, rfl⟩
      · exact ⟨some "", h, rfl⟩
    obtain ⟨v, hfv, hvd⟩ := hgd
    have hempty : filtersIsEmpty f = false := by
      simp [filtersIsEmpty, hfv]
    have hbeq : (pyLower (v.getD "") == pyLower e.platform) = false := by
      rw [hvd]
      exact beq_eq_false_iff_ne.mpr (Ne.symm (pyLower_ne_empty hne))
    unfold match_filters
    rw [hempty]
    simp [hfv, hbeq]
  · intro e f hf hne
    have hgd : ∃ v, f.severity = some v ∧ v.getD "" = "" := by
      rcases hf with h | h
      · exact ⟨none, h, rfl⟩
      · exact ⟨some "", h, rfl⟩
    obtain ⟨v, hfv, hvd⟩ := hgd
    have hempty : filtersIsEmpty f = false := by
      simp [filtersIsEmpty, hfv]
    have hbeq : (pyLower (v.getD "") == pyLower e.severity) = false := by
      rw [hvd]
      exact beq_eq_false_iff_ne.mpr (Ne.symm (pyLower_ne_empty hne))
    unfold match_filters
    rw [hempty]
    simp [hfv, hbeq]
  · intro e f hf
    have hgd : ∃ v, f.labels = some v ∧ v.getD [] = [] := by
      rcases hf with h | h
      · exact ⟨none, h, rfl⟩
      · exact ⟨some [], h, rfl⟩
    obtain ⟨v, hfv, hvd⟩ := hgd
    have hempty : filtersIsEmpty f = false := by
      simp [filtersIsEmpty, hfv]
    unfold match_filters
    rw [hempty]
    simp [hfv, hvd]

/-- C10 witness: the three exclusions instantiated at a concrete event. -/
theorem match_filters_empty_values_witness :
    match_filters medEvent ⟨some (some ""), none, none, false⟩ = false
      ∧ match_filters medEvent ⟨none, some none, none, false⟩ = false
      ∧ match_filters medEvent ⟨none, none, some (some []), false⟩ = false :=
  ⟨match_filters_empty_values.1 medEvent ⟨some (some ""), none, none, false⟩
      (Or.inr rfl) (by decide),
   match_filters_empty_values.2.1 medEvent ⟨none, some none, none, false⟩
      (Or.inl rfl) (by decide),
   match_filters_empty_values.2.2 medEvent ⟨none, none, some (some []), false⟩
      (Or.inr rfl)⟩

/-- C8: the list-events operation returns at most `limit` events ordered
newest-first by detection time, with `next_cursor` rendering the last
returned record's timestamp; any call whose cursor parses to a time `t`
returns only events strictly older than `t`.  With five seeded events and
limit 2, the first call returns exactly the two newest and the follow-up
call with the returned cursor returns the next two distinct events. -/
theorem list_events_pagination :
    (∀ (store : List Event) (q : EventQuery),
        (list_events store q).1.length ≤ q.limit
          ∧ (list_events store q).1.Pairwise newestFirst
          ∧ (∀ d, (list_events store q).1.getLast? = some d →
              (list_events store q).2 = some (isoZ d.found_at))
          ∧ (∀ c t, q.cursor = some c → parseIsoZ c = some t →
              ∀ e ∈ (list_events store q).1, e.found_at < t))
      ∧ list_events store5 q5 = ([ev5, ev4], some (isoZ 40))
      ∧ list_events store5 { q5 with cursor := some (isoZ 40) }
          = ([ev3, ev2], some (isoZ 20)) := by
  refine ⟨?_, by decide, by decide⟩
  intro store q
  refine ⟨?_, ?_, ?_, ?_⟩
  · show ((sortByTimeDesc (store.filter (matchesQuery q))).take q.limit).length ≤ q.limit
    simp [List.length_take]
  · exact List.Pairwise.sublist (List.take_sublist _ _) (sortByTimeDesc_pairwise _)
  · intro d hd
    have hsnd : (list_events store q).2
        = (list_events store q).1.getLast?.map (fun x => isoZ x.found_at) := rfl
    rw [hsnd, hd]
    rfl
  · intro c t hc ht e he
    have he1 : e ∈ sortByTimeDesc (store.filter (matchesQuery q)) :=
      (List.take_sublist _ _).subset he
    have he2 : e ∈ store.filter (matchesQuery q) :=
      (sortByTimeDesc_perm _).mem_iff.mp he1
    have hq : matchesQuery q e = true := (List.mem_filter.mp he2).2
    have hlt : (buildTimeCond q).lt = some t := by
      simp [buildTimeCond, hc, ht]
    exact matchesQuery_lt hlt hq

/-- C8 witness: the strict-older guarantee and the next-cursor rendering
discharged at the concrete five-event store. -/
theorem list_events_pagination_witness :
    ev3.found_at < 40
      ∧ (list_events store5 { q5 with cursor := some (isoZ 40) }).2
          = some (isoZ ev2.found_at) := by
  have h := list_events_pagination
  have hgen := h.1 store5 { q5 with cursor := some (isoZ 40) }
  constructor
  · apply hgen.2.2.2 (isoZ 40) 40 rfl (by decide) ev3
    rw [show (list_events store5 { q5 with cursor := some (isoZ 40) }).1 = [ev3, ev2]
      from congrArg Prod.fst h.2.2]
    simp
  · apply hgen.2.2.1 ev2
    rw [show (list_events store5 { q5 with cursor := some (isoZ 40) }).1 = [ev3, ev2]
      from congrArg Prod.fst h.2.2]
    rfl

/-- C9 counterexample: with pattern list [("bad", "("), ("good", "x")] the
startup compilation raises (propagates the regex error) instead of
skipping the bad entry and compiling the remaining valid pattern. -/
theorem compilePatterns_fatal_cex :
    compilePatterns [("bad", "("), ("good", "x")] = Except.error "("
      ∧ compilePatterns [("bad", "("), ("good", "x")]
          ≠ Except.ok [("good", ⟨"x"⟩)] :=
  ⟨rfl, fun h => Except.noConfusion h⟩

/-- C9 (amended): the startup pattern compilation is all-or-nothing — if
every entry's regular expression is valid, all entries are compiled in
order; if any entry is invalid, the compilation propagates the error
(aborting module import), and no remaining-entry dictionary is produced. -/
theorem compilePatterns_all_or_error (items : List (String × String)) :
    ((∀ p ∈ items, parenBalanced p.2 = true) →
        compilePatterns items
          = Except.ok (items.map fun p => (p.1, (⟨p.2⟩ : CompiledPattern))))
      ∧ ((∃ p ∈ items, parenBalanced p.2 = false) →
        ∃ e, compilePatterns items = Except.error e) := by
  induction items with
  | nil =>
    constructor
    · intro _
      rfl
    · rintro ⟨p, hp, _⟩
      exact absurd hp (List.not_mem_nil p)
  | cons kv rest ih =>
    obtain ⟨k, v⟩ := kv
    constructor
    · intro hall
      have hv : parenBalanced v = true := hall (k, v) (List.mem_cons_self _ _)
      have hrest := ih.1 (fun p hp => hall p (List.mem_cons_of_mem _ hp))
      simp [compilePatterns, reCompile, hv, hrest]
    · rintro ⟨p, hp, hbad⟩
      rcases List.mem_cons.mp hp with rfl | hpr
      · have hbad' : parenBalanced v = false := hbad
        refine ⟨v, ?_⟩
        simp [compilePatterns, reCompile, hbad']
      · by_cases hv : parenBalanced v = true
        · rcases ih.2 ⟨p, hpr, hbad⟩ with ⟨e, he⟩
          refine ⟨e, ?_⟩
          simp [compilePatterns, reCompile, hv, he]
        · have hv' : parenBalanced v = false := by
            cases hb : parenBalanced v with
            | false => rfl
            | true => exact absurd hb hv
          refine ⟨v, ?_⟩
          simp [compilePatterns, reCompile, hv']

/-- C9 witness: the amended theorem instantiated at an all-valid list and
at a list containing an invalid expression. -/
theorem compilePatterns_all_or_error_witness :
    compilePatterns [("Password", "hunter[0-9]+")]
        = Except.ok [("Password", ⟨"hunter[0-9]+"⟩)]
      ∧ ∃ e, compilePatterns [("bad", "(")] = Except.error e :=
  ⟨(compilePatterns_all_or_error [("Password", "hunter[0-9]+")]).1 (by decide),
   (compilePatterns_all_or_error [("bad", "(")]).2 ⟨("bad", "("), by simp, by decide⟩⟩
